import Mathlib

/-!
Verification of the shopping-cart core of `src/script.js`.

The embedding mirrors the three classes of the source:
* `Product` — immutable catalog entry `(id, name, price)`;
* `ShoppingCartItem` — a product paired with a quantity, with
  `calculateTotal` returning `price * quantity`;
* `ShoppingCart` — a list of items, with `getTotal`, `addItem`,
  `removeItem`.

Prices are modelled as exact rationals (the design performs no rounding
during computation; rounding happens only at display time, which is out
of scope).  Quantities and ids are natural numbers.
-/

/-- Mirrors `class Product` of `src/script.js`: a plain data holder. -/
structure Product where
  id : Nat
  name : String
  price : ℚ
deriving Repr, DecidableEq

/-- Mirrors `class ShoppingCartItem`: links a `Product` with a quantity. -/
structure ShoppingCartItem where
  product : Product
  quantity : Nat
deriving Repr, DecidableEq

/-- Mirrors `ShoppingCartItem.calculateTotal`:
`this.product.price * this.quantity`. -/
def ShoppingCartItem.calculateTotal (item : ShoppingCartItem) : ℚ :=
  item.product.price * item.quantity

/-- Mirrors `class ShoppingCart`: `this.items = []` holds the cart lines in
insertion order. -/
structure ShoppingCart where
  items : List ShoppingCartItem
deriving Repr, DecidableEq

/-- Mirrors `ShoppingCart.getTotal`:
`this.items.reduce((total, item) => total + item.calculateTotal(), 0)`.
JavaScript `reduce` with initial value `0` is a left fold. -/
def ShoppingCart.getTotal (cart : ShoppingCart) : ℚ :=
  cart.items.foldl (fun total item => total + item.calculateTotal) 0

/-- The body of `ShoppingCart.addItem` on the item list: scan for the first
item whose product id equals `product.id`; if found, increment that item's
quantity in place (`existingItem.quantity += quantity`); otherwise push a
new `ShoppingCartItem(product, quantity)` at the end. -/
def addToItems (product : Product) (quantity : Nat) :
    List ShoppingCartItem → List ShoppingCartItem
  | [] => [⟨product, quantity⟩]
  | item :: rest =>
    if item.product.id = product.id then
      ⟨item.product, item.quantity + quantity⟩ :: rest
    else
      item :: addToItems product quantity rest

/-- Mirrors `ShoppingCart.addItem(product, quantity = 1)`. -/
def ShoppingCart.addItem (cart : ShoppingCart) (product : Product)
    (quantity : Nat) : ShoppingCart :=
  ⟨addToItems product quantity cart.items⟩

/-- Mirrors `ShoppingCart.removeItem(productId)`:
`this.items = this.items.filter(item => item.product.id !== productId)`. -/
def ShoppingCart.removeItem (cart : ShoppingCart) (productId : Nat) :
    ShoppingCart :=
  ⟨cart.items.filter (fun item => item.product.id ≠ productId)⟩

/-- Catalog entry `new Product(1, "Laptop", 999.99)`. -/
def laptop : Product := ⟨1, "Laptop", (999.99 : ℚ)⟩

/-- Catalog entry `new Product(2, "Smartphone", 599.99)`. -/
def smartphone : Product := ⟨2, "Smartphone", (599.99 : ℚ)⟩

/-- Catalog entry `new Product(3, "Headphones", 199.99)`. -/
def headphones : Product := ⟨3, "Headphones", (199.99 : ℚ)⟩

/-- Catalog entry `new Product(4, "Smart Watch", 249.50)`. -/
def smartWatch : Product := ⟨4, "Smart Watch", (249.50 : ℚ)⟩

/-- Catalog entry `new Product(5, "Tablet", 399.00)`. -/
def tablet : Product := ⟨5, "Tablet", (399.00 : ℚ)⟩

/-- Catalog entry `new Product(6, "Keyboard", 49.99)`. -/
def keyboard : Product := ⟨6, "Keyboard", (49.99 : ℚ)⟩

/-- Mirrors the `products` mock database of `src/script.js`. -/
def products : List Product :=
  [laptop, smartphone, headphones, smartWatch, tablet, keyboard]

/-- Mirrors `window.addToCart(productId)`: resolve the id in the catalog
with `products.find(p => p.id === productId)`; when found, delegate to
`myCart.addItem(product)` (default quantity `1`); when not found, do
nothing.  The UI re-render that follows does not touch the cart state. -/
def addToCart (cart : ShoppingCart) (productId : Nat) : ShoppingCart :=
  match products.find? (fun p => p.id = productId) with
  | some product => cart.addItem product 1
  | none => cart

/-- The cart invariant stated in the spec: at most one line per distinct
product id. -/
def uniqueIds (cart : ShoppingCart) : Prop :=
  (cart.items.map (fun item => item.product.id)).Nodup

instance (cart : ShoppingCart) : Decidable (uniqueIds cart) := by
  unfold uniqueIds; infer_instance

/-- A finite sequence of `addItem(product, quantity)` calls, performed left
to right. -/
def addCalls (cart : ShoppingCart) (calls : List (Product × Nat)) :
    ShoppingCart :=
  calls.foldl (fun c pq => c.addItem pq.1 pq.2) cart

/- ### Helper lemmas -/

/-- `getTotal` as a left fold from an arbitrary accumulator. -/
lemma foldl_calculateTotal (l : List ShoppingCartItem) (a : ℚ) :
    l.foldl (fun total item => total + item.calculateTotal) a
      = a + (l.map ShoppingCartItem.calculateTotal).sum := by
  induction l generalizing a with
  | nil => simp
  | cons x xs ih => simp [ih, add_assoc]

/-- `C1`: `getTotal()` returns the sum of `product.price * quantity` over
all lines, and `0` on an empty cart. -/
theorem getTotal_eq_sum (cart : ShoppingCart) :
    cart.getTotal
        = (cart.items.map
            (fun item => item.product.price * (item.quantity : ℚ))).sum
      ∧ (ShoppingCart.mk []).getTotal = 0 := by
  constructor
  · unfold ShoppingCart.getTotal
    rw [foldl_calculateTotal, zero_add]
    rfl
  · rfl

/-- When no line matches, `addToItems` appends the new line at the end. -/
lemma addToItems_of_not_mem (p : Product) (q : Nat)
    (items : List ShoppingCartItem)
    (h : ∀ item ∈ items, item.product.id ≠ p.id) :
    addToItems p q items = items ++ [⟨p, q⟩] := by
  induction items with
  | nil => rfl
  | cons it rest ih =>
    have hit : it.product.id ≠ p.id := h it (List.mem_cons_self it rest)
    simp only [addToItems, if_neg hit, List.cons_append]
    exact congrArg (it :: ·) (ih fun x hx => h x (List.mem_cons_of_mem it hx))

/-- When the list splits at the first matching line, `addToItems` increments
exactly that line's quantity and leaves everything else untouched. -/
lemma addToItems_of_split (p : Product) (q : Nat)
    (pre : List ShoppingCartItem) (item : ShoppingCartItem)
    (post : List ShoppingCartItem)
    (hpre : ∀ x ∈ pre, x.product.id ≠ p.id)
    (hitem : item.product.id = p.id) :
    addToItems p q (pre ++ item :: post)
      = pre ++ ⟨item.product, item.quantity + q⟩ :: post := by
  induction pre with
  | nil => simp [addToItems, if_pos hitem]
  | cons x xs ih =>
    have hx : x.product.id ≠ p.id := hpre x (List.mem_cons_self x xs)
    simp only [List.cons_append, addToItems, if_neg hx]
    exact congrArg (x :: ·)
      (ih fun y hy => hpre y (List.mem_cons_of_mem x hy))

/-- Every product id occurring after `addToItems` is either the added id or
an id that was already present. -/
lemma mem_ids_addToItems (p : Product) (q : Nat)
    (items : List ShoppingCartItem) (x : Nat)
    (hx : x ∈ (addToItems p q items).map (fun item => item.product.id)) :
    x = p.id ∨ x ∈ items.map (fun item => item.product.id) := by
  induction items with
  | nil => simpa [addToItems] using hx
  | cons it rest ih =>
    by_cases hit : it.product.id = p.id
    · simp only [addToItems, if_pos hit, List.map_cons, List.mem_cons] at hx ⊢
      rcases hx with hx | hx
      · exact Or.inl (hx.trans hit)
      · exact Or.inr (Or.inr hx)
    · simp only [addToItems, if_neg hit, List.map_cons, List.mem_cons] at hx ⊢
      rcases hx with hx | hx
      · exact Or.inr (Or.inl hx)
      · rcases ih hx with h | h
        · exact Or.inl h
        · exact Or.inr (Or.inr h)

/-- `addToItems` preserves distinctness of the product ids. -/
lemma nodup_addToItems (p : Product) (q : Nat)
    (items : List ShoppingCartItem)
    (h : (items.map (fun item => item.product.id)).Nodup) :
    ((addToItems p q items).map (fun item => item.product.id)).Nodup := by
  induction items with
  | nil => simp [addToItems]
  | cons it rest ih =>
    simp only [List.map_cons, List.nodup_cons] at h
    by_cases hit : it.product.id = p.id
    · simp only [addToItems, if_pos hit, List.map_cons, List.nodup_cons]
      exact ⟨h.1, h.2⟩
    · simp only [addToItems, if_neg hit, List.map_cons, List.nodup_cons]
      refine ⟨fun hmem => ?_, ih h.2⟩
      rcases mem_ids_addToItems p q rest it.product.id hmem with heq | hmem2
      · exact hit heq
      · exact h.1 hmem2

/-- `C2`: both `addItem` and `removeItem` preserve the invariant that the
cart holds at most one line per distinct product id. -/
theorem cart_invariant_preserved (cart : ShoppingCart) (p : Product)
    (q pid : Nat) (h : uniqueIds cart) :
    uniqueIds (cart.addItem p q) ∧ uniqueIds (cart.removeItem pid) := by
  constructor
  · exact nodup_addToItems p q cart.items h
  · unfold uniqueIds ShoppingCart.removeItem
    exact ((List.filter_sublist cart.items).map _).nodup h

/-- Witness for `C2` at a concrete cart. -/
theorem cart_invariant_preserved_witness :
    uniqueIds ((ShoppingCart.mk [⟨laptop, 1⟩]).addItem headphones 2)
  ∧ uniqueIds ((ShoppingCart.mk [⟨laptop, 1⟩]).removeItem 1) :=
  cart_invariant_preserved ⟨[⟨laptop, 1⟩]⟩ headphones 2 1 (by decide)

/-- `C3`: `addItem` increments the quantity of the (first) line whose
product id matches, and otherwise appends a fresh line at the end, keeping
the existing lines in order. -/
theorem addItem_spec (cart : ShoppingCart) (p : Product) (q : Nat) :
    ((∀ item ∈ cart.items, item.product.id ≠ p.id) →
      (cart.addItem p q).items = cart.items ++ [⟨p, q⟩])
  ∧ (∀ pre item post, cart.items = pre ++ item :: post →
      (∀ x ∈ pre, x.product.id ≠ p.id) → item.product.id = p.id →
      (cart.addItem p q).items
        = pre ++ ⟨item.product, item.quantity + q⟩ :: post) := by
  constructor
  · intro h
    exact addToItems_of_not_mem p q cart.items h
  · intro pre item post hsplit hpre hitem
    show addToItems p q cart.items = _
    rw [hsplit]
    exact addToItems_of_split p q pre item post hpre hitem

/-- Witness for `C3`: both branches at concrete carts. -/
theorem addItem_spec_witness :
    ((ShoppingCart.mk []).addItem laptop 2).items = [⟨laptop, 2⟩]
  ∧ ((ShoppingCart.mk [⟨headphones, 1⟩, ⟨laptop, 3⟩]).addItem laptop 2).items
      = [⟨headphones, 1⟩, ⟨laptop, 5⟩] := by
  refine ⟨?_, ?_⟩
  · simpa using (addItem_spec ⟨[]⟩ laptop 2).1 (by simp)
  · simpa using (addItem_spec ⟨[⟨headphones, 1⟩, ⟨laptop, 3⟩]⟩ laptop 2).2
      [⟨headphones, 1⟩] ⟨laptop, 3⟩ [] rfl (by decide) rfl

/-- `C4`: `removeItem` removes every line whose product id equals the given
id, and is a silent no-op when no line matches. -/
theorem removeItem_spec (cart : ShoppingCart) (pid : Nat) :
    (∀ item ∈ (cart.removeItem pid).items, item.product.id ≠ pid)
  ∧ ((∀ item ∈ cart.items, item.product.id ≠ pid) →
      cart.removeItem pid = cart) := by
  constructor
  · intro item hitem
    have := (List.mem_filter.mp hitem).2
    simpa using this
  · intro h
    unfold ShoppingCart.removeItem
    have : cart.items.filter (fun item => item.product.id ≠ pid)
        = cart.items := by
      rw [List.filter_eq_self]
      intro a ha
      simpa using h a ha
    rw [this]

/-- Witness for `C4` at a concrete cart. -/
theorem removeItem_spec_witness :
    (∀ item ∈ ((ShoppingCart.mk [⟨laptop, 2⟩]).removeItem 1).items,
      item.product.id ≠ 1)
  ∧ (ShoppingCart.mk [⟨laptop, 2⟩]).removeItem 3
      = ShoppingCart.mk [⟨laptop, 2⟩] :=
  ⟨(removeItem_spec ⟨[⟨laptop, 2⟩]⟩ 1).1,
   (removeItem_spec ⟨[⟨laptop, 2⟩]⟩ 3).2 (by decide)⟩

/-- When some line matches, `addToItems` keeps the list length. -/
lemma length_addToItems_of_mem (p : Product) (q : Nat)
    (items : List ShoppingCartItem)
    (h : ∃ item ∈ items, item.product.id = p.id) :
    (addToItems p q items).length = items.length := by
  induction items with
  | nil => simp at h
  | cons it rest ih =>
    by_cases hit : it.product.id = p.id
    · simp [addToItems, if_pos hit]
    · rcases h with ⟨item, hmem, hid⟩
      rcases List.mem_cons.mp hmem with rfl | hmem2
      · exact absurd hid hit
      · simp [addToItems, if_neg hit, ih ⟨item, hmem2, hid⟩]

/-- `C6`: `addItem` with a fresh product id adds exactly one line;
`addItem` with an existing id leaves the line count unchanged. -/
theorem addItem_length (cart : ShoppingCart) (p : Product) (q : Nat) :
    ((∀ item ∈ cart.items, item.product.id ≠ p.id) →
      (cart.addItem p q).items.length = cart.items.length + 1)
  ∧ ((∃ item ∈ cart.items, item.product.id = p.id) →
      (cart.addItem p q).items.length = cart.items.length) := by
  constructor
  · intro h
    show (addToItems p q cart.items).length = _
    rw [addToItems_of_not_mem p q cart.items h]
    simp
  · intro h
    exact length_addToItems_of_mem p q cart.items h

/-- Witness for `C6`: both branches at concrete carts. -/
theorem addItem_length_witness :
    ((ShoppingCart.mk [⟨laptop, 1⟩]).addItem headphones 1).items.length
        = 1 + 1
  ∧ ((ShoppingCart.mk [⟨laptop, 1⟩]).addItem laptop 1).items.length = 1 :=
  ⟨(addItem_length ⟨[⟨laptop, 1⟩]⟩ headphones 1).1 (by decide),
   (addItem_length ⟨[⟨laptop, 1⟩]⟩ laptop 1).2 (by decide)⟩

/-- `C9`: `removeItem` keeps the remaining lines as a sublist of the
original lines (same relative order, each line untouched), and every line
whose product id differs from the removed id survives. -/
theorem removeItem_frame (cart : ShoppingCart) (pid : Nat) :
    List.Sublist (cart.removeItem pid).items cart.items
  ∧ (∀ item ∈ cart.items, item.product.id ≠ pid →
      item ∈ (cart.removeItem pid).items) := by
  constructor
  · exact List.filter_sublist cart.items
  · intro item hmem hne
    exact List.mem_filter.mpr ⟨hmem, by simpa using hne⟩

/-- Witness for `C9` at a concrete cart. -/
theorem removeItem_frame_witness :
    List.Sublist
      ((ShoppingCart.mk [⟨laptop, 1⟩, ⟨headphones, 2⟩]).removeItem 1).items
      [⟨laptop, 1⟩, ⟨headphones, 2⟩]
  ∧ (⟨headphones, 2⟩ : ShoppingCartItem)
      ∈ ((ShoppingCart.mk [⟨laptop, 1⟩, ⟨headphones, 2⟩]).removeItem 1).items :=
  ⟨(removeItem_frame ⟨[⟨laptop, 1⟩, ⟨headphones, 2⟩]⟩ 1).1,
   (removeItem_frame ⟨[⟨laptop, 1⟩, ⟨headphones, 2⟩]⟩ 1).2
     ⟨headphones, 2⟩ (by simp) (by decide)⟩

/-- If the lines matching id `i` are exactly `[item]`, then after one more
`addItem` with that id they are exactly `[item]` with its quantity bumped. -/
lemma filter_addToItems_single (p : Product) (q i : Nat)
    (items : List ShoppingCartItem) (item : ShoppingCartItem)
    (hp : p.id = i)
    (h : items.filter (fun it => it.product.id = i) = [item]) :
    (addToItems p q items).filter (fun it => it.product.id = i)
      = [⟨item.product, item.quantity + q⟩] := by
  induction items with
  | nil => simp at h
  | cons it rest ih =>
    by_cases hit : it.product.id = p.id
    · have hiti : it.product.id = i := hit.trans hp
      simp only [List.filter_cons, decide_eq_true_eq, if_pos hiti] at h
      have hitem : it = item := (List.cons_eq_cons.mp h).1
      have hrest := (List.cons_eq_cons.mp h).2
      subst hitem
      simp only [addToItems, if_pos hit, List.filter_cons,
        decide_eq_true_eq, if_pos hiti]
      rw [hrest]
    · have hiti : it.product.id ≠ i := fun hcon => hit (hcon.trans hp.symm)
      simp only [List.filter_cons, decide_eq_true_eq, if_neg hiti] at h
      simp only [addToItems, if_neg hit, List.filter_cons,
        decide_eq_true_eq, if_neg hiti]
      exact ih h

/-- When the cart has no line for `p.id`, a fresh `addItem` gives exactly
one matching line, `⟨p, q⟩`. -/
lemma filter_addItem_fresh (cart : ShoppingCart) (p : Product) (q i : Nat)
    (hp : p.id = i)
    (h : ∀ item ∈ cart.items, item.product.id ≠ i) :
    (cart.addItem p q).items.filter (fun it => it.product.id = i)
      = [⟨p, q⟩] := by
  show (addToItems p q cart.items).filter _ = _
  rw [addToItems_of_not_mem p q cart.items
    (fun item hm hcon => h item hm (hcon.trans hp))]
  rw [List.filter_append]
  have hnil : cart.items.filter (fun it => it.product.id = i) = [] := by
    simp only [List.filter_eq_nil_iff, decide_eq_true_eq]
    exact h
  rw [hnil]
  simp [hp]

/-- Folding further same-id calls over a cart with exactly one matching
line accumulates their quantities into that line. -/
lemma addCalls_filter (i : Nat) (calls : List (Product × Nat))
    (hid : ∀ c ∈ calls, c.1.id = i) :
    ∀ (cart : ShoppingCart) (item : ShoppingCartItem),
      cart.items.filter (fun it => it.product.id = i) = [item] →
      (addCalls cart calls).items.filter (fun it => it.product.id = i)
        = [⟨item.product, item.quantity + (calls.map Prod.snd).sum⟩] := by
  induction calls with
  | nil =>
    intro cart item h
    simpa [addCalls] using h
  | cons c rest ih =>
    intro cart item h
    have hc : c.1.id = i := hid c (List.mem_cons_self c rest)
    have hstep := filter_addToItems_single c.1 c.2 i cart.items item hc h
    have htail := ih (fun x hx => hid x (List.mem_cons_of_mem c hx))
      (cart.addItem c.1 c.2) ⟨item.product, item.quantity + c.2⟩ hstep
    simpa [addCalls, add_assoc] using htail

/-- `C5`: any nonempty sequence of `addItem` calls whose products all carry
the same id, run on a cart with no line for that id, yields exactly one
line for that id, with quantity the sum of the quantities passed. -/
theorem addItem_sequence_same_id (cart : ShoppingCart) (i : Nat)
    (calls : List (Product × Nat))
    (hne : calls ≠ [])
    (hid : ∀ c ∈ calls, c.1.id = i)
    (hstart : ∀ item ∈ cart.items, item.product.id ≠ i) :
    ∃ item, (addCalls cart calls).items.filter
        (fun it => it.product.id = i) = [item]
      ∧ item.quantity = (calls.map Prod.snd).sum := by
  match calls, hne with
  | c :: rest, _ =>
    have hc : c.1.id = i := hid c (List.mem_cons_self c rest)
    have hstep := filter_addItem_fresh cart c.1 c.2 i hc hstart
    have hrest := addCalls_filter i rest
      (fun x hx => hid x (List.mem_cons_of_mem c hx))
      (cart.addItem c.1 c.2) ⟨c.1, c.2⟩ hstep
    refine ⟨⟨c.1, c.2 + (rest.map Prod.snd).sum⟩, ?_, rfl⟩
    simpa [addCalls] using hrest

/-- Witness for `C5`: two adds of Laptop with quantities 2 and 3. -/
theorem addItem_sequence_same_id_witness :
    ∃ item, (addCalls ⟨[]⟩ [(laptop, 2), (laptop, 3)]).items.filter
        (fun it => it.product.id = 1) = [item]
      ∧ item.quantity = ([(laptop, 2), (laptop, 3)].map Prod.snd).sum :=
  addItem_sequence_same_id ⟨[]⟩ 1 [(laptop, 2), (laptop, 3)]
    (List.cons_ne_nil _ _) (by simp [laptop]) (by simp)

/-- `C7`: the catalog walk-through: add Laptop, add Laptop again, add
Headphones, remove Laptop twice, checking lines and totals at each step. -/
theorem checkout_scenario :
    ((ShoppingCart.mk []).addItem laptop 1).getTotal = (999.99 : ℚ)
  ∧ (((ShoppingCart.mk []).addItem laptop 1).addItem laptop 1).items
      = [⟨laptop, 2⟩]
  ∧ (((ShoppingCart.mk []).addItem laptop 1).addItem laptop 1).getTotal
      = (1999.98 : ℚ)
  ∧ ((((ShoppingCart.mk []).addItem laptop 1).addItem laptop 1).addItem
        headphones 1).items.length = 2
  ∧ ((((ShoppingCart.mk []).addItem laptop 1).addItem laptop 1).addItem
        headphones 1).getTotal = (2199.97 : ℚ)
  ∧ (((((ShoppingCart.mk []).addItem laptop 1).addItem laptop 1).addItem
        headphones 1).removeItem 1).items = [⟨headphones, 1⟩]
  ∧ (((((ShoppingCart.mk []).addItem laptop 1).addItem laptop 1).addItem
        headphones 1).removeItem 1).getTotal = (199.99 : ℚ)
  ∧ ((((((ShoppingCart.mk []).addItem laptop 1).addItem laptop 1).addItem
        headphones 1).removeItem 1).removeItem 1)
      = ((((ShoppingCart.mk []).addItem laptop 1).addItem laptop 1).addItem
        headphones 1).removeItem 1
  ∧ ((((((ShoppingCart.mk []).addItem laptop 1).addItem laptop 1).addItem
        headphones 1).removeItem 1).removeItem 1).getTotal
      = (199.99 : ℚ) := by
  refine ⟨?_, ?_, ?_, ?_, ?_, ?_, ?_, ?_, ?_⟩ <;>
    norm_num [ShoppingCart.addItem, addToItems, ShoppingCart.removeItem,
      ShoppingCart.getTotal, ShoppingCartItem.calculateTotal,
      laptop, headphones]

/-- `C8`: `addToCart` with an id that occurs nowhere in the catalog leaves
the cart untouched (and, being a total function, signals no failure). -/
theorem addToCart_unknown_id (cart : ShoppingCart) (pid : Nat)
    (h : ∀ p ∈ products, p.id ≠ pid) :
    addToCart cart pid = cart := by
  unfold addToCart
  have hnone : products.find? (fun p => p.id = pid) = none := by
    rw [List.find?_eq_none]
    intro p hp
    simpa using h p hp
  rw [hnone]

/-- Witness for `C8`: id 7 is not in the catalog. -/
theorem addToCart_unknown_id_witness :
    addToCart (ShoppingCart.mk [⟨laptop, 1⟩]) 7
      = ShoppingCart.mk [⟨laptop, 1⟩] :=
  addToCart_unknown_id ⟨[⟨laptop, 1⟩]⟩ 7
    (by simp [products, laptop, smartphone, headphones, smartWatch,
      tablet, keyboard])

/-- `C10`: for an id that resolves in the catalog, `addToCart` always adds
with quantity exactly `1`: a first add creates a quantity-1 line and each
repeat add increments the existing line's quantity by `1`. -/
theorem addToCart_known_id (pid : Nat) (p : Product)
    (hfind : products.find? (fun q => q.id = pid) = some p) :
    (∀ cart : ShoppingCart,
      (∀ item ∈ cart.items, item.product.id ≠ p.id) →
      (addToCart cart pid).items = cart.items ++ [⟨p, 1⟩])
  ∧ (∀ (cart : ShoppingCart) pre item post,
      cart.items = pre ++ item :: post →
      (∀ x ∈ pre, x.product.id ≠ p.id) → item.product.id = p.id →
      (addToCart cart pid).items
        = pre ++ ⟨item.product, item.quantity + 1⟩ :: post) := by
  constructor
  · intro cart h
    unfold addToCart
    rw [hfind]
    exact addToItems_of_not_mem p 1 cart.items h
  · intro cart pre item post hsplit hpre hitem
    unfold addToCart
    rw [hfind]
    show addToItems p 1 cart.items = _
    rw [hsplit]
    exact addToItems_of_split p 1 pre item post hpre hitem

/-- Witness for `C10`: id 3 (Headphones), first add then repeat add. -/
theorem addToCart_known_id_witness :
    (addToCart (ShoppingCart.mk []) 3).items = [] ++ [⟨headphones, 1⟩]
  ∧ (addToCart (ShoppingCart.mk [⟨headphones, 4⟩]) 3).items
      = [] ++ ⟨headphones, 4 + 1⟩ :: [] := by
  constructor
  · exact (addToCart_known_id 3 headphones rfl).1 ⟨[]⟩ (by simp)
  · exact (addToCart_known_id 3 headphones rfl).2 ⟨[⟨headphones, 4⟩]⟩
      [] ⟨headphones, 4⟩ [] rfl (by simp) rfl
